import Mathlib

/-!
Verification of the mini-party booking backend.

The Go backend (handlers/booking.go, middleware AdminAuth, models.Booking)
is embedded shallowly: the booking record is a structure, the validator is a
pure function returning the normalized record together with the list of
violation messages, and the store is a list of rows with a next-identifier
counter.  The Go standard library call `mail.ParseAddress` is outside this
repository, so the validator is parameterized by an oracle
`parseAddressOk : String → Bool` that reports whether the call succeeds.
-/

/-- The booking record, from `models.Booking`: identifier plus the six
business fields.  `ID` is `int64` in Go, `Duration` and `Guests` are `int`;
all are modelled as `Int` (string fields stay strings). -/
structure Booking where
  id : Int
  name : String
  email : String
  phone : String
  date : String
  time : String
  duration : Int
  guests : Int
deriving Repr, DecidableEq

/-- Go's `unicode.IsSpace`: the Latin-1 whitespace characters together with
the remaining code points carrying the Unicode White_Space property. -/
def goIsSpace (c : Char) : Bool :=
  c.val = 0x09 || c.val = 0x0A || c.val = 0x0B || c.val = 0x0C || c.val = 0x0D ||
  c.val = 0x20 || c.val = 0x85 || c.val = 0xA0 ||
  c.val = 0x1680 || (0x2000 ≤ c.val && c.val ≤ 0x200A) ||
  c.val = 0x2028 || c.val = 0x2029 || c.val = 0x202F || c.val = 0x205F || c.val = 0x3000

/-- Go's `strings.TrimSpace`: drop leading and trailing characters satisfying
`unicode.IsSpace`. -/
def goTrimSpace (s : String) : String :=
  ⟨((s.data.dropWhile goIsSpace).reverse.dropWhile goIsSpace).reverse⟩

/-- `validateBooking` from `handlers/booking.go`: trim name, email and phone
in place, then accumulate the violation messages of the seven rules in order.
Go's `len` on a string counts UTF-8 bytes, hence `utf8ByteSize` for the phone
check.  `parseAddressOk` stands for success of `mail.ParseAddress`. -/
def validateBooking (parseAddressOk : String → Bool) (b0 : Booking) :
    Booking × List String :=
  let b : Booking := { b0 with
    name := goTrimSpace b0.name
    email := goTrimSpace b0.email
    phone := goTrimSpace b0.phone }
  let errs : List String :=
    (if b.name = "" then ["Name is required"] else []) ++
    (if parseAddressOk b.email then [] else ["Valid email is required"]) ++
    (if b.phone.utf8ByteSize < 7 then ["Valid phone number is required"] else []) ++
    (if b.date = "" then ["Date is required"] else []) ++
    (if b.time = "" then ["Time is required"] else []) ++
    (if b.duration < 1 ∨ b.duration > 8 then ["Duration must be between 1 and 8 hours"] else []) ++
    (if b.guests < 1 ∨ b.guests > 100 then ["Guests must be between 1 and 100"] else [])
  (b, errs)

/-- The `bookings` table: the stored rows together with the next value of the
`AUTOINCREMENT` identifier column. -/
structure Store where
  nextId : Int
  rows : List Booking
deriving Repr, DecidableEq

/-- A freshly created table: no rows, identifiers start at 1. -/
def Store.empty : Store := ⟨1, []⟩

/-- Strict lexicographic comparison of character sequences, the order SQLite
applies to `TEXT` columns (code-point order coincides with UTF-8 byte
order). -/
def charListLt : List Char → List Char → Bool
  | _, [] => false
  | [], _ :: _ => true
  | a :: as, b :: bs => decide (a < b) || (decide (a = b) && charListLt as bs)

/-- Strict lexicographic comparison of strings. -/
def strLtB (a b : String) : Bool := charListLt a.data b.data

/-- The `ORDER BY date ASC, time ASC` comparison: ascending by the `date`
string, ties broken by the `time` string, both compared as plain strings. -/
def bookingLE (a b : Booking) : Bool :=
  strLtB a.date b.date || (decide (a.date = b.date) && !strLtB b.time a.time)

/-- `bookingLE` as a relation, for the sorting lemmas. -/
def bookingLEP (a b : Booking) : Prop := bookingLE a b = true

instance : DecidableRel bookingLEP := fun a b =>
  inferInstanceAs (Decidable (bookingLE a b = true))

/-- The read path of `GetBookings`:
`SELECT ... FROM bookings ORDER BY date ASC, time ASC`. -/
def Store.listAll (s : Store) : List Booking :=
  List.insertionSort bookingLEP s.rows

/-- Outcome of the `CreateBooking` handler. -/
inductive CreateResponse
  /-- 400, body `{"error": "Invalid request body"}`. -/
  | invalidBody
  /-- 400, body `{"errors": errs}`. -/
  | validationErrors (errs : List String)
  /-- 500, body `{"error": "Failed to save booking"}`. -/
  | saveFailed
  /-- 500, body `{"error": "Failed to retrieve booking ID"}`: the `INSERT`
  has already committed, only `LastInsertId` failed. -/
  | idRetrievalFailed
  /-- 201, body `{"message": "Booking confirmed!", "booking": b}`. -/
  | created (b : Booking)
deriving Repr, DecidableEq

/-- `CreateBooking` from `handlers/booking.go`.  `body` is the result of
`ShouldBindJSON` (`none` when the request body does not bind), `insertFails`
models failure of the `INSERT` statement, and `idFails` models failure of
`result.LastInsertId()` — a branch reached only after the `INSERT` has
committed, so the row is persisted although a 500 is returned.  Returns the
response together with the table state after the request. -/
def CreateBooking (parseAddressOk : String → Bool) (body : Option Booking)
    (insertFails idFails : Bool) (s : Store) : CreateResponse × Store :=
  match body with
  | none => (.invalidBody, s)
  | some raw =>
    let v := validateBooking parseAddressOk raw
    if v.2 ≠ [] then
      (.validationErrors v.2, s)
    else if insertFails then
      (.saveFailed, s)
    else
      let stored : Booking := { v.1 with id := s.nextId }
      let inserted : Store := { nextId := s.nextId + 1, rows := s.rows ++ [stored] }
      if idFails then
        (.idRetrievalFailed, inserted)
      else
        (.created stored, inserted)

/-- Outcome of the `GetBookings` handler. -/
inductive ListResponse
  /-- 500, body `{"error": "Failed to fetch bookings"}`. -/
  | fetchFailed
  /-- 200 with the ordered rows. -/
  | ok (rows : List Booking)
deriving Repr, DecidableEq

/-- `GetBookings` from `handlers/booking.go`: the query either fails (500) or
returns every row in `ORDER BY date ASC, time ASC` order. -/
def GetBookings (readFails : Bool) (s : Store) : ListResponse :=
  if readFails then .fetchFailed else .ok s.listAll

/-- Outcome of the `AdminAuth` middleware. -/
inductive AuthResult
  /-- 500, body `{"error": "Admin access is not configured"}`, aborted. -/
  | notConfigured
  /-- 401, body `{"error": "Unauthorized"}`, aborted. -/
  | unauthorized
  /-- The request proceeds to the handler. -/
  | proceed
deriving Repr, DecidableEq

/-- `AdminAuth` from the middleware package.  `secret` is
`os.Getenv "ADMIN_SECRET"` (the empty string when the variable is unset) and
`token` is the `X-Admin-Token` header (the empty string when absent). -/
def AdminAuth (secret token : String) : AuthResult :=
  if secret = "" then .notConfigured
  else if token = "" ∨ token ≠ secret then .unauthorized
  else .proceed

/-- Outcome of `GET /bookings` as a whole. -/
inductive ListEndpointResponse
  /-- HTTP 500. -/
  | serverError500
  /-- HTTP 401. -/
  | unauthorized401
  /-- HTTP 200 with the ordered rows. -/
  | ok200 (rows : List Booking)
deriving Repr, DecidableEq

/-- The `GET /bookings` route: `AdminAuth` middleware followed by
`GetBookings`, as wired in `main.go`. -/
def listBookingsEndpoint (secret token : String) (readFails : Bool)
    (s : Store) : ListEndpointResponse :=
  match AdminAuth secret token with
  | .notConfigured => .serverError500
  | .unauthorized => .unauthorized401
  | .proceed =>
    match GetBookings readFails s with
    | .fetchFailed => .serverError500
    | .ok rows => .ok200 rows

/-- Oracle accepting every email string, used to instantiate
`parseAddressOk` in concrete evaluations. -/
def acceptAll : String → Bool := fun _ => true

/-- A record passing all seven rules, from the spec's scenario. -/
def sampleBooking : Booking :=
  { id := 0, name := "Jane Doe", email := "jane@example.com",
    phone := "+1234567890", date := "2026-03-15", time := "18:00",
    duration := 3, guests := 25 }

example : (validateBooking acceptAll sampleBooking).2 = [] := by decide

example : (validateBooking acceptAll { sampleBooking with duration := 0 }).2 =
    ["Duration must be between 1 and 8 hours"] := by decide

example : goTrimSpace "  hi \t" = "hi" := by decide

/-! Shared lemmas about the validator. -/

/-- The violation list, written out over the input record's fields. -/
theorem validate_errs_eq (po : String → Bool) (b : Booking) :
    (validateBooking po b).2 =
      (if goTrimSpace b.name = "" then ["Name is required"] else []) ++
      (if po (goTrimSpace b.email) then [] else ["Valid email is required"]) ++
      (if (goTrimSpace b.phone).utf8ByteSize < 7 then ["Valid phone number is required"] else []) ++
      (if b.date = "" then ["Date is required"] else []) ++
      (if b.time = "" then ["Time is required"] else []) ++
      (if b.duration < 1 ∨ b.duration > 8 then ["Duration must be between 1 and 8 hours"] else []) ++
      (if b.guests < 1 ∨ b.guests > 100 then ["Guests must be between 1 and 100"] else []) := rfl

/-- The violation list is empty exactly when all seven rules pass. -/
theorem validate_nil_iff (po : String → Bool) (b : Booking) :
    (validateBooking po b).2 = [] ↔
      (goTrimSpace b.name ≠ "" ∧ po (goTrimSpace b.email) = true ∧
       7 ≤ (goTrimSpace b.phone).utf8ByteSize ∧ b.date ≠ "" ∧ b.time ≠ "" ∧
       1 ≤ b.duration ∧ b.duration ≤ 8 ∧ 1 ≤ b.guests ∧ b.guests ≤ 100) := by
  rw [validate_errs_eq]
  split_ifs <;> simp_all <;> omega

/-- The name message appears exactly when the trimmed name is empty. -/
theorem mem_errs_name (po : String → Bool) (b : Booking) :
    "Name is required" ∈ (validateBooking po b).2 ↔ goTrimSpace b.name = "" := by
  rw [validate_errs_eq]
  split_ifs <;> simp_all

/-- The email message appears exactly when the oracle rejects the trimmed
email. -/
theorem mem_errs_email (po : String → Bool) (b : Booking) :
    "Valid email is required" ∈ (validateBooking po b).2 ↔
      po (goTrimSpace b.email) = false := by
  rw [validate_errs_eq]
  split_ifs <;> simp_all

/-- The phone message appears exactly when the trimmed phone is shorter than
7 UTF-8 bytes. -/
theorem mem_errs_phone (po : String → Bool) (b : Booking) :
    "Valid phone number is required" ∈ (validateBooking po b).2 ↔
      (goTrimSpace b.phone).utf8ByteSize < 7 := by
  rw [validate_errs_eq]
  split_ifs <;> simp_all

/-- The date message appears exactly when the date is the empty string. -/
theorem mem_errs_date (po : String → Bool) (b : Booking) :
    "Date is required" ∈ (validateBooking po b).2 ↔ b.date = "" := by
  rw [validate_errs_eq]
  split_ifs <;> simp_all

/-- The time message appears exactly when the time is the empty string. -/
theorem mem_errs_time (po : String → Bool) (b : Booking) :
    "Time is required" ∈ (validateBooking po b).2 ↔ b.time = "" := by
  rw [validate_errs_eq]
  split_ifs <;> simp_all

/-- The duration message appears exactly when the duration is outside 1..8. -/
theorem mem_errs_duration (po : String → Bool) (b : Booking) :
    "Duration must be between 1 and 8 hours" ∈ (validateBooking po b).2 ↔
      (b.duration < 1 ∨ b.duration > 8) := by
  rw [validate_errs_eq]
  split_ifs <;> simp_all

/-- The guests message appears exactly when the guest count is outside
1..100. -/
theorem mem_errs_guests (po : String → Bool) (b : Booking) :
    "Guests must be between 1 and 100" ∈ (validateBooking po b).2 ↔
      (b.guests < 1 ∨ b.guests > 100) := by
  rw [validate_errs_eq]
  split_ifs <;> simp_all

/-- A sequence never compares below itself. -/
theorem charListLt_irrefl : ∀ as, charListLt as as = false
  | [] => rfl
  | a :: as => by simp [charListLt, charListLt_irrefl as]

/-- Lexicographic comparison is transitive. -/
theorem charListLt_trans : ∀ as bs cs, charListLt as bs = true →
    charListLt bs cs = true → charListLt as cs = true := by
  intro as
  induction as with
  | nil =>
    intro bs cs h₁ h₂
    cases cs with
    | nil => cases bs <;> simp [charListLt] at h₂
    | cons c cs => simp [charListLt]
  | cons a as ih =>
    intro bs cs h₁ h₂
    cases bs with
    | nil => simp [charListLt] at h₁
    | cons b bs =>
      cases cs with
      | nil => simp [charListLt] at h₂
      | cons c cs =>
        simp only [charListLt, Bool.or_eq_true, Bool.and_eq_true,
          decide_eq_true_eq] at h₁ h₂ ⊢
        rcases h₁ with h₁ | ⟨rfl, h₁⟩ <;> rcases h₂ with h₂ | ⟨rfl, h₂⟩
        · exact Or.inl (lt_trans h₁ h₂)
        · exact Or.inl h₁
        · exact Or.inl h₂
        · exact Or.inr ⟨rfl, ih bs cs h₁ h₂⟩

/-- Lexicographic comparison is asymmetric. -/
theorem charListLt_asymm (as bs : List Char) (h : charListLt as bs = true) :
    charListLt bs as = false := by
  by_contra h'
  have hba : charListLt bs as = true := by
    cases hv : charListLt bs as with
    | false => exact absurd hv h'
    | true => rfl
  have := charListLt_trans as bs as h hba
  rw [charListLt_irrefl] at this
  exact Bool.false_ne_true this

/-- Two sequences neither of which compares below the other are equal. -/
theorem charListLt_conn : ∀ as bs, charListLt as bs = false →
    charListLt bs as = false → as = bs := by
  intro as
  induction as with
  | nil =>
    intro bs h₁ _
    cases bs with
    | nil => rfl
    | cons b bs => simp [charListLt] at h₁
  | cons a as ih =>
    intro bs h₁ h₂
    cases bs with
    | nil => simp [charListLt] at h₂
    | cons b bs =>
      simp only [charListLt, Bool.or_eq_false_iff, Bool.and_eq_false_iff,
        decide_eq_false_iff_not, Bool.not_eq_true] at h₁ h₂
      rcases lt_trichotomy a b with hab | rfl | hab
      · exact absurd hab h₁.1
      · rcases h₁.2 with h | h
        · exact absurd rfl h
        · rcases h₂.2 with h' | h'
          · exact absurd rfl h'
          · rw [ih bs h h']
      · exact absurd hab h₂.1

/-- Two strings neither of which compares below the other are equal. -/
theorem strLtB_conn (a b : String) (h₁ : strLtB a b = false)
    (h₂ : strLtB b a = false) : a = b := by
  cases a with
  | mk da =>
    cases b with
    | mk db => exact congrArg String.mk (charListLt_conn da db h₁ h₂)

instance : IsTotal Booking bookingLEP where
  total a b := by
    unfold bookingLEP bookingLE
    cases hd : strLtB a.date b.date with
    | true => simp
    | false =>
      cases hd' : strLtB b.date a.date with
      | true => simp
      | false =>
        have he : a.date = b.date := strLtB_conn _ _ hd hd'
        cases ht : strLtB b.time a.time with
        | false => simp [he, ht]
        | true =>
          have : strLtB a.time b.time = false := charListLt_asymm _ _ ht
          simp [he, this]

instance : IsTrans Booking bookingLEP where
  trans a b c hab hbc := by
    unfold bookingLEP bookingLE at *
    simp only [Bool.or_eq_true, Bool.and_eq_true, decide_eq_true_eq,
      Bool.not_eq_true'] at hab hbc ⊢
    rcases hab with h₁ | ⟨e₁, t₁⟩ <;> rcases hbc with h₂ | ⟨e₂, t₂⟩
    · exact Or.inl (charListLt_trans _ _ _ h₁ h₂)
    · exact Or.inl (e₂ ▸ h₁)
    · exact Or.inl (e₁ ▸ h₂)
    · refine Or.inr ⟨e₁.trans e₂, ?_⟩
      cases hca : strLtB c.time a.time with
      | false => rfl
      | true =>
        exfalso
        cases hbc' : strLtB b.time c.time with
        | false =>
          have hbt : b.time = c.time := strLtB_conn _ _ hbc' t₂
          rw [hbt] at t₁
          rw [t₁] at hca
          exact Bool.false_ne_true hca
        | true =>
          have hba : strLtB b.time a.time = true := charListLt_trans _ _ _ hbc' hca
          rw [t₁] at hba
          exact Bool.false_ne_true hba

/-- Membership in `listAll` is membership in the stored rows. -/
theorem mem_listAll (s : Store) (b : Booking) : b ∈ s.listAll ↔ b ∈ s.rows :=
  List.mem_insertionSort bookingLEP

/-! Claim theorems. -/

/-- C1: for every candidate booking record, the validator returns exactly the
violation messages of the rules the record fails, in the fixed order name,
email, phone, date, time, duration, guests; the list is empty iff all seven
rules hold; duration 0 and 9 are rejected while 1 and 8 are accepted, and
guests 0 and 101 are rejected while 1 and 100 are accepted. -/
theorem validator_messages_exact_order (po : String → Bool) (b : Booking) :
    ((validateBooking po b).2 =
      (if goTrimSpace b.name = "" then ["Name is required"] else []) ++
      (if po (goTrimSpace b.email) then [] else ["Valid email is required"]) ++
      (if (goTrimSpace b.phone).utf8ByteSize < 7 then ["Valid phone number is required"] else []) ++
      (if b.date = "" then ["Date is required"] else []) ++
      (if b.time = "" then ["Time is required"] else []) ++
      (if b.duration < 1 ∨ b.duration > 8 then ["Duration must be between 1 and 8 hours"] else []) ++
      (if b.guests < 1 ∨ b.guests > 100 then ["Guests must be between 1 and 100"] else [])) ∧
    ((validateBooking po b).2 = [] ↔
      (goTrimSpace b.name ≠ "" ∧ po (goTrimSpace b.email) = true ∧
       7 ≤ (goTrimSpace b.phone).utf8ByteSize ∧ b.date ≠ "" ∧ b.time ≠ "" ∧
       1 ≤ b.duration ∧ b.duration ≤ 8 ∧ 1 ≤ b.guests ∧ b.guests ≤ 100)) ∧
    (b.duration = 0 ∨ b.duration = 9 →
      "Duration must be between 1 and 8 hours" ∈ (validateBooking po b).2) ∧
    (b.duration = 1 ∨ b.duration = 8 →
      "Duration must be between 1 and 8 hours" ∉ (validateBooking po b).2) ∧
    (b.guests = 0 ∨ b.guests = 101 →
      "Guests must be between 1 and 100" ∈ (validateBooking po b).2) ∧
    (b.guests = 1 ∨ b.guests = 100 →
      "Guests must be between 1 and 100" ∉ (validateBooking po b).2) := by
  refine ⟨validate_errs_eq po b, validate_nil_iff po b, ?_, ?_, ?_, ?_⟩
  · intro h
    exact (mem_errs_duration po b).mpr (by omega)
  · intro h hmem
    have := (mem_errs_duration po b).mp hmem
    omega
  · intro h
    exact (mem_errs_guests po b).mpr (by omega)
  · intro h hmem
    have := (mem_errs_guests po b).mp hmem
    omega

/-- C2: a record that passes validation, once created, appears in the listing
with every business field equal to the normalized record's, only the
identifier being store-assigned. -/
theorem create_then_list_roundtrip (po : String → Bool) (raw : Booking)
    (s : Store) (h : (validateBooking po raw).2 = []) :
    (CreateBooking po (some raw) false false s).1 =
      CreateResponse.created { (validateBooking po raw).1 with id := s.nextId } ∧
    { (validateBooking po raw).1 with id := s.nextId } ∈
      (CreateBooking po (some raw) false false s).2.listAll ∧
    ({ (validateBooking po raw).1 with id := s.nextId } : Booking).name =
      (validateBooking po raw).1.name ∧
    ({ (validateBooking po raw).1 with id := s.nextId } : Booking).email =
      (validateBooking po raw).1.email ∧
    ({ (validateBooking po raw).1 with id := s.nextId } : Booking).phone =
      (validateBooking po raw).1.phone ∧
    ({ (validateBooking po raw).1 with id := s.nextId } : Booking).date =
      (validateBooking po raw).1.date ∧
    ({ (validateBooking po raw).1 with id := s.nextId } : Booking).time =
      (validateBooking po raw).1.time ∧
    ({ (validateBooking po raw).1 with id := s.nextId } : Booking).duration =
      (validateBooking po raw).1.duration ∧
    ({ (validateBooking po raw).1 with id := s.nextId } : Booking).guests =
      (validateBooking po raw).1.guests := by
  have hc : CreateBooking po (some raw) false false s =
      (.created { (validateBooking po raw).1 with id := s.nextId },
       { nextId := s.nextId + 1,
         rows := s.rows ++ [{ (validateBooking po raw).1 with id := s.nextId }] }) := by
    simp [CreateBooking, h]
  refine ⟨by rw [hc], ?_, rfl, rfl, rfl, rfl, rfl, rfl, rfl⟩
  rw [hc]
  exact (mem_listAll _ _).mpr (by simp)

/-- Witness for C2: the spec's sample scenario record, created on the empty
store, appears in the listing. -/
theorem create_then_list_roundtrip_witness :
    (validateBooking acceptAll sampleBooking).2 = [] ∧
    { (validateBooking acceptAll sampleBooking).1 with id := Store.empty.nextId } ∈
      (CreateBooking acceptAll (some sampleBooking) false false Store.empty).2.listAll :=
  ⟨by decide,
   (create_then_list_roundtrip acceptAll sampleBooking Store.empty (by decide)).2.1⟩

/-- A valid record dated 2026-01-02. -/
def bookingJan2 : Booking :=
  { id := 0, name := "Alice", email := "alice@example.com", phone := "1234567",
    date := "2026-01-02", time := "18:00", duration := 3, guests := 25 }

/-- The same record dated 2026-01-01. -/
def bookingJan1 : Booking := { bookingJan2 with date := "2026-01-01" }

/-- The store after inserting the 2026-01-02 record and then the 2026-01-01
record. -/
def storeTwoInserts : Store :=
  (CreateBooking acceptAll (some bookingJan1) false false
    (CreateBooking acceptAll (some bookingJan2) false false Store.empty).2).2

/-- The Bool comparison agrees with lexicographic ordering of character
sequences. -/
theorem charListLt_iff_lex : ∀ as bs : List Char,
    charListLt as bs = true ↔ List.Lex (· < ·) as bs := by
  intro as
  induction as with
  | nil =>
    intro bs
    cases bs with
    | nil =>
      constructor
      · intro h
        simp [charListLt] at h
      · intro h
        cases h
    | cons b bs =>
      exact iff_of_true rfl List.Lex.nil
  | cons a as ih =>
    intro bs
    cases bs with
    | nil =>
      constructor
      · intro h
        simp [charListLt] at h
      · intro h
        cases h
    | cons b bs =>
      simp only [charListLt, Bool.or_eq_true, Bool.and_eq_true,
        decide_eq_true_eq, ih]
      constructor
      · rintro (h | ⟨rfl, h⟩)
        · exact List.Lex.rel h
        · exact List.Lex.cons h
      · intro h
        cases h with
        | cons h => exact Or.inr ⟨rfl, h⟩
        | rel h => exact Or.inl h

/-- C3: `listAll` returns all stored rows, ordered ascending by the date
string and then the time string, both compared lexicographically as plain
character sequences; inserting dates 2026-01-02 then 2026-01-01 lists the
2026-01-01 record first. -/
theorem listAll_sorted_by_date_time (s : Store) :
    s.listAll.Perm s.rows ∧
    List.Sorted bookingLEP s.listAll ∧
    (∀ a b : Booking, bookingLEP a b ↔
      (List.Lex (· < ·) a.date.data b.date.data ∨
        (a.date = b.date ∧ ¬ List.Lex (· < ·) b.time.data a.time.data))) ∧
    storeTwoInserts.listAll =
      [{ bookingJan1 with id := 2 }, { bookingJan2 with id := 1 }] := by
  refine ⟨List.perm_insertionSort bookingLEP s.rows,
    List.sorted_insertionSort bookingLEP s.rows, ?_, by decide⟩
  intro a b
  unfold bookingLEP bookingLE
  simp only [Bool.or_eq_true, Bool.and_eq_true, decide_eq_true_eq,
    Bool.not_eq_true']
  constructor
  · rintro (h | ⟨he, ht⟩)
    · exact Or.inl ((charListLt_iff_lex _ _).mp h)
    · refine Or.inr ⟨he, fun hl => ?_⟩
      have hv : strLtB b.time a.time = true := (charListLt_iff_lex _ _).mpr hl
      rw [ht] at hv
      exact Bool.false_ne_true hv
  · rintro (h | ⟨he, ht⟩)
    · exact Or.inl ((charListLt_iff_lex _ _).mpr h)
    · refine Or.inr ⟨he, ?_⟩
      cases hv : strLtB b.time a.time with
      | false => rfl
      | true => exact absurd ((charListLt_iff_lex _ _).mp hv) ht

/-- C4: the admin gate yields 500 whenever no secret is configured, whatever
token is presented; 401 when a secret is configured and the token is absent
or different; and 200 with the (possibly empty) ordered booking list when the
token equals the secret exactly.  The 500 and 401 outcomes are distinct. -/
theorem admin_gate_statuses (secret token : String) (s : Store) :
    (secret = "" → listBookingsEndpoint secret token false s = .serverError500) ∧
    (secret ≠ "" → (token = "" ∨ token ≠ secret) →
      listBookingsEndpoint secret token false s = .unauthorized401) ∧
    (secret ≠ "" → token = secret →
      listBookingsEndpoint secret token false s = .ok200 s.listAll) ∧
    ListEndpointResponse.serverError500 ≠ ListEndpointResponse.unauthorized401 := by
  refine ⟨?_, ?_, ?_, by simp⟩
  · intro h
    subst h
    rfl
  · intro hs ht
    unfold listBookingsEndpoint AdminAuth
    rw [if_neg hs, if_pos ht]
  · intro hs ht
    have hnot : ¬(token = "" ∨ token ≠ secret) := by
      rintro (h | h)
      · exact hs (ht ▸ h)
      · exact h ht
    unfold listBookingsEndpoint AdminAuth GetBookings
    rw [if_neg hs, if_neg hnot]
    rfl

/-- Witness for C4 at concrete inputs: unset secret gives 500, wrong token
gives 401, matching token gives 200 with the empty list. -/
theorem admin_gate_statuses_witness :
    listBookingsEndpoint "" "any" false Store.empty = .serverError500 ∧
    listBookingsEndpoint "hunter2" "wrong" false Store.empty = .unauthorized401 ∧
    listBookingsEndpoint "hunter2" "hunter2" false Store.empty = .ok200 [] :=
  ⟨(admin_gate_statuses "" "any" Store.empty).1 rfl,
   (admin_gate_statuses "hunter2" "wrong" Store.empty).2.1 (by decide)
     (Or.inr (by decide)),
   (admin_gate_statuses "hunter2" "hunter2" Store.empty).2.2.1 (by decide) rfl⟩

/-- Counterexample to C5 as stated: when the insert succeeds and only the
identifier retrieval fails (booking.go lines 36-40), the handler answers 500
yet the row is already persisted, so the stored state is NOT unchanged on
every error path. -/
theorem create_error_path_persists_counterexample :
    (CreateBooking acceptAll (some sampleBooking) false true Store.empty).1 =
      CreateResponse.idRetrievalFailed ∧
    (CreateBooking acceptAll (some sampleBooking) false true Store.empty).2 ≠
      Store.empty ∧
    (CreateBooking acceptAll (some sampleBooking) false true Store.empty).2.rows.length = 1 := by
  decide

/-- C5 (amended): an unparsable body yields 400 with the store unchanged; a
record with violations yields 400 carrying exactly that violation list with
the store unchanged; a failing insert yields 500 with the store unchanged;
but when the insert succeeds and retrieving the assigned identifier fails,
 the handler answers 500 although the record has been persisted; a record
with zero violations whose insert and identifier retrieval succeed is
appended with the next identifier and answered 201 with the stored record. -/
theorem create_booking_error_paths (po : String → Bool) (s : Store) :
    (∀ f g, CreateBooking po none f g s = (.invalidBody, s)) ∧
    (∀ b f g, (validateBooking po b).2 ≠ [] →
      CreateBooking po (some b) f g s =
        (.validationErrors (validateBooking po b).2, s)) ∧
    (∀ b g, (validateBooking po b).2 = [] →
      CreateBooking po (some b) true g s = (.saveFailed, s)) ∧
    (∀ b, (validateBooking po b).2 = [] →
      CreateBooking po (some b) false true s =
        (.idRetrievalFailed,
         { nextId := s.nextId + 1,
           rows := s.rows ++ [{ (validateBooking po b).1 with id := s.nextId }] })) ∧
    (∀ b, (validateBooking po b).2 = [] →
      CreateBooking po (some b) false false s =
        (.created { (validateBooking po b).1 with id := s.nextId },
         { nextId := s.nextId + 1,
           rows := s.rows ++ [{ (validateBooking po b).1 with id := s.nextId }] })) := by
  refine ⟨fun f g => rfl, ?_, ?_, ?_, ?_⟩
  · intro b f g h
    simp [CreateBooking, h]
  · intro b g h
    simp [CreateBooking, h]
  · intro b h
    simp [CreateBooking, h]
  · intro b h
    simp [CreateBooking, h]

/-- Witness for C5: a guests=0 record is rejected with its violation list and
the store untouched; identifier-retrieval failure on the sample record gives
500 with the record persisted anyway; the plain success path persists it with
identifier 1 and answers 201. -/
theorem create_booking_error_paths_witness :
    CreateBooking acceptAll (some { sampleBooking with guests := 0 }) false
      false Store.empty =
      (.validationErrors
        (validateBooking acceptAll { sampleBooking with guests := 0 }).2,
       Store.empty) ∧
    CreateBooking acceptAll (some sampleBooking) false true Store.empty =
      (.idRetrievalFailed,
       { nextId := Store.empty.nextId + 1,
         rows := Store.empty.rows ++
           [{ (validateBooking acceptAll sampleBooking).1 with id := Store.empty.nextId }] }) ∧
    CreateBooking acceptAll (some sampleBooking) false false Store.empty =
      (.created
        { (validateBooking acceptAll sampleBooking).1 with id := Store.empty.nextId },
       { nextId := Store.empty.nextId + 1,
         rows := Store.empty.rows ++
           [{ (validateBooking acceptAll sampleBooking).1 with id := Store.empty.nextId }] }) :=
  ⟨(create_booking_error_paths acceptAll Store.empty).2.1 _ false false (by decide),
   (create_booking_error_paths acceptAll Store.empty).2.2.2.1 _ (by decide),
   (create_booking_error_paths acceptAll Store.empty).2.2.2.2 _ (by decide)⟩

/-- Dropping a prefix twice is the same as dropping it once. -/
theorem dropWhile_dropWhile {α : Type} (p : α → Bool) (l : List α) :
    (l.dropWhile p).dropWhile p = l.dropWhile p := by
  cases h : l.dropWhile p with
  | nil => rfl
  | cons a as =>
    have hh := List.head?_dropWhile_not p l
    rw [h] at hh
    simp only [List.head?_cons] at hh
    simp [List.dropWhile_cons, hh]

/-- The record component of the validator, written out. -/
theorem validate_fst (po : String → Bool) (b : Booking) :
    (validateBooking po b).1 =
      { b with name := goTrimSpace b.name, email := goTrimSpace b.email,
               phone := goTrimSpace b.phone } := rfl

/-- Trimming is idempotent: a trimmed string has nothing left to trim. -/
theorem goTrimSpace_idem (s : String) :
    goTrimSpace (goTrimSpace s) = goTrimSpace s := by
  have key : ∀ l : List Char,
      (((((((l.dropWhile goIsSpace).reverse.dropWhile goIsSpace).reverse).dropWhile
        goIsSpace).reverse).dropWhile goIsSpace).reverse) =
      ((l.dropWhile goIsSpace).reverse.dropWhile goIsSpace).reverse := by
    intro l
    cases hm : (l.dropWhile goIsSpace).reverse.dropWhile goIsSpace with
    | nil => simp
    | cons c m' =>
      have hhead : ((c :: m').reverse).head? = (l.dropWhile goIsSpace).head? := by
        rw [List.head?_reverse]
        have hsuf : (c :: m') <:+ (l.dropWhile goIsSpace).reverse := by
          rw [← hm]
          exact List.dropWhile_suffix goIsSpace
        obtain ⟨u, hu⟩ := hsuf
        rw [← List.getLast?_reverse (l.dropWhile goIsSpace), ← hu,
          List.getLast?_append]
        cases hg : (c :: m').getLast? with
        | none =>
          have hns := List.getLast?_isSome (l := c :: m')
          rw [hg] at hns
          simp at hns
        | some x => rfl
      have hr : ((c :: m').reverse).dropWhile goIsSpace = (c :: m').reverse := by
        cases hrr : (c :: m').reverse with
        | nil => rfl
        | cons d r' =>
          have h1 := List.head?_dropWhile_not goIsSpace l
          rw [← hhead] at h1
          rw [hrr] at h1
          simp only [List.head?_cons] at h1
          simp [List.dropWhile_cons, h1]
      rw [hr, List.reverse_reverse, ← hm, dropWhile_dropWhile]
  exact congrArg String.mk (key s.data)

/-- C6: the validator trims exactly the name, email and phone fields, leaves
date, time, duration, guests and the identifier untouched, does so on every
input record, and re-running the validator on the normalized record changes
nothing: the verdict is the verdict of the trimmed record. -/
theorem validator_normalization_frame (po : String → Bool) (b : Booking) :
    (validateBooking po b).1.name = goTrimSpace b.name ∧
    (validateBooking po b).1.email = goTrimSpace b.email ∧
    (validateBooking po b).1.phone = goTrimSpace b.phone ∧
    (validateBooking po b).1.date = b.date ∧
    (validateBooking po b).1.time = b.time ∧
    (validateBooking po b).1.duration = b.duration ∧
    (validateBooking po b).1.guests = b.guests ∧
    (validateBooking po b).1.id = b.id ∧
    validateBooking po ((validateBooking po b).1) = validateBooking po b := by
  refine ⟨rfl, rfl, rfl, rfl, rfl, rfl, rfl, rfl, ?_⟩
  have h1 : (validateBooking po ((validateBooking po b).1)).1 =
      (validateBooking po b).1 := by
    rw [validate_fst po ((validateBooking po b).1), validate_fst po b]
    simp [goTrimSpace_idem]
  have h2 : (validateBooking po ((validateBooking po b).1)).2 =
      (validateBooking po b).2 := by
    rw [validate_errs_eq po ((validateBooking po b).1), validate_errs_eq po b]
    simp [validate_fst, goTrimSpace_idem]
  exact Prod.ext h1 h2

/-- Witness for C1 at concrete inputs: duration 0 is rejected and guests 100
is accepted. -/
theorem validator_messages_exact_order_witness :
    "Duration must be between 1 and 8 hours" ∈
      (validateBooking acceptAll { sampleBooking with duration := 0 }).2 ∧
    "Guests must be between 1 and 100" ∉
      (validateBooking acceptAll { sampleBooking with guests := 100 }).2 :=
  ⟨(validator_messages_exact_order acceptAll
      { sampleBooking with duration := 0 }).2.2.1 (Or.inl rfl),
   (validator_messages_exact_order acceptAll
      { sampleBooking with guests := 100 }).2.2.2.2.2 (Or.inr rfl)⟩

/-- A record whose phone has three characters but nine UTF-8 bytes. -/
def multibytePhoneBooking : Booking := { sampleBooking with phone := "€€€" }

/-- Counterexample to C7 as stated: this phone has fewer than 7 characters
after trimming, yet the validator reports no phone violation, because the Go
check measures UTF-8 bytes. -/
theorem phone_rule_char_count_counterexample :
    (goTrimSpace multibytePhoneBooking.phone).length < 7 ∧
    "Valid phone number is required" ∉
      (validateBooking acceptAll multibytePhoneBooking).2 := by decide

/-- C7 (amended): the validator reports the phone message exactly when the
trimmed phone is shorter than 7 UTF-8 bytes; no other property of the phone
matters. -/
theorem phone_rule_utf8_bytes (po : String → Bool) (b : Booking) :
    "Valid phone number is required" ∈ (validateBooking po b).2 ↔
      (goTrimSpace b.phone).utf8ByteSize < 7 :=
  mem_errs_phone po b

/-- C8: listing fails with the storage error exactly when the underlying read
fails, and a successful read over an empty store answers 200 with the empty
sequence, not an error. -/
theorem list_bookings_error_iff_read_fails (s : Store) (f : Bool) :
    (GetBookings f s = .fetchFailed ↔ f = true) ∧
    GetBookings false s = .ok s.listAll ∧
    (∀ n : Int, GetBookings false { nextId := n, rows := [] } = .ok []) := by
  refine ⟨?_, rfl, fun n => rfl⟩
  cases f
  · simp [GetBookings]
  · simp [GetBookings]

/-- The sample record with a whitespace-only date. -/
def wsDateBooking : Booking := { sampleBooking with date := " " }

/-- C9: the date and time checks compare the untrimmed strings against the
empty string, so a whitespace-only date or time raises no violation; a record
with date " " and all other fields valid gets zero violations and is
persisted with that date unmodified. -/
theorem date_time_checked_untrimmed (po : String → Bool) (b : Booking) :
    ("Date is required" ∈ (validateBooking po b).2 ↔ b.date = "") ∧
    ("Time is required" ∈ (validateBooking po b).2 ↔ b.time = "") ∧
    (validateBooking acceptAll wsDateBooking).2 = [] ∧
    (CreateBooking acceptAll (some wsDateBooking) false false Store.empty).2.rows.map
      Booking.date = [" "] :=
  ⟨mem_errs_date po b, mem_errs_time po b, by decide, by decide⟩

/-- The sample record with an RFC 5322 name-addr email. -/
def janeBooking : Booking :=
  { sampleBooking with email := "Jane Doe <jane@example.com>" }

/-- C10: whenever the address parser accepts the trimmed email — Go's
`mail.ParseAddress`, modelled by the oracle, accepts RFC 5322 name-addr forms
such as "Jane Doe <jane@example.com>" — the validator reports no email
violation and keeps the trimmed submitted string verbatim in the email field,
and creation persists that verbatim string; no extracted bare mailbox is ever
substituted. -/
theorem email_oracle_accept_verbatim (po : String → Bool) (b : Booking)
    (h : po (goTrimSpace b.email) = true) :
    "Valid email is required" ∉ (validateBooking po b).2 ∧
    (validateBooking po b).1.email = goTrimSpace b.email ∧
    (∀ s : Store, (validateBooking po b).2 = [] →
      ((CreateBooking po (some b) false false s).2.rows.map Booking.email).getLast? =
        some (goTrimSpace b.email)) := by
  refine ⟨?_, rfl, ?_⟩
  · intro hmem
    rw [mem_errs_email po b, h] at hmem
    exact Bool.noConfusion hmem
  · intro s hv
    simp [CreateBooking, hv]
    rfl

/-- Witness for C10: with an all-accepting oracle, the name-addr email is
kept verbatim through validation and persistence. -/
theorem email_oracle_accept_verbatim_witness :
    acceptAll (goTrimSpace janeBooking.email) = true ∧
    (validateBooking acceptAll janeBooking).1.email =
      "Jane Doe <jane@example.com>" ∧
    ((CreateBooking acceptAll (some janeBooking) false false Store.empty).2.rows.map
        Booking.email).getLast? = some "Jane Doe <jane@example.com>" := by
  have h := email_oracle_accept_verbatim acceptAll janeBooking rfl
  refine ⟨rfl, ?_, ?_⟩
  · exact h.2.1.trans (by decide)
  · exact (h.2.2 Store.empty (by decide)).trans (by decide)
